import Mathlib

/-!
# Verification of the i3x client's streaming subscription subsystem

Shallow embedding of the core of the `python-i3x-client` library:
the SSE decode loop (`src/i3x/_sse.py`), the HTTP transport and its
error mapping (`src/i3x/_transport.py`), the subscription registry
(`src/i3x/_subscription.py`) and the value models (`src/i3x/models.py`).

Python strings are modelled as `List Char`; machine-level details
(sockets, threads) are modelled by explicit parameters: the byte stream
is a list of text chunks, the cooperative stop flag is the global step
index at which `stop()` is invoked, and the external JSON parser
(`json.loads`, Python stdlib, not part of this repository) is an
abstract parameter `parse : Str → Option Json`.
-/

namespace I3X

/-- Python strings are modelled as lists of characters. -/
abbrev Str := List Char

/-- Shorthand turning a Lean string literal into the model's string type. -/
def strL (s : String) : Str := s.data

/-! ## SSE framing (`SSEStream._read_events`, `_sse.py` lines 79-92)

The loop accumulates chunks into `buffer` and repeatedly executes
`event_text, buffer = buffer.split("\n\n", 1)` while `"\n\n" in buffer`.
-/

/-- Model of `buffer.split("\n\n", 1)`: split at the leftmost occurrence of two
consecutive newlines, returning the part before and the part after it;
`none` when `"\n\n" not in buffer`. -/
def splitFirstNN : Str → Option (Str × Str)
  | [] => none
  | c :: rest =>
    if c = '\n' ∧ rest.head? = some '\n' then some ([], rest.tail)
    else (splitFirstNN rest).map fun p => (c :: p.1, p.2)

/-- The `while "\n\n" in buffer` loop: extract every complete frame,
in order, returning the frames and the leftover (incomplete) buffer. -/
def extractFrames (buf : Str) : List Str × Str :=
  match h : splitFirstNN buf with
  | none => ([], buf)
  | some (ev, rest) =>
    let p := extractFrames rest
    (ev :: p.1, p.2)
termination_by buf.length
decreasing_by
  have key : ∀ (b e r : Str), splitFirstNN b = some (e, r) → r.length < b.length := by
    intro b
    induction b with
    | nil => intro e r h; simp [splitFirstNN] at h
    | cons c cs ih =>
      intro e r h
      rw [splitFirstNN] at h
      split at h
      · simp only [Option.some.injEq, Prod.mk.injEq] at h
        obtain ⟨_, h2⟩ := h
        subst h2
        cases cs <;> simp <;> omega
      · rcases hsp : splitFirstNN cs with _ | ⟨p1, p2⟩ <;> rw [hsp] at h
        · simp at h
        · simp only [Option.map_some', Option.some.injEq, Prod.mk.injEq] at h
          obtain ⟨_, h2⟩ := h
          subst h2
          have := ih p1 p2 hsp
          simp
          omega
  exact key buf ev rest h

/-! ## The read loop with the cooperative stop flag

`_read_events` checks `self._stop_event.is_set()` once at the top of each
read iteration, then drains every complete frame in the buffer.  The flag
is set asynchronously by `stop()`; we model the interleaving by a global
atomic-step counter: each flag check and each `_process_event_text` call
is one step, and `setAt` is the step index from which the flag reads set
(`none`: `stop()` is never called). -/

/-- One processed frame: the step at which its read iteration checked the
stop flag, the step at which `_process_event_text` ran on it, and its text. -/
structure ProcFrame where
  checkTime : Nat
  procTime : Nat
  text : Str
deriving DecidableEq

/-- Value the stop flag reads at step `t` when `stop()` happens at step `setAt`. -/
def stopSeen (setAt : Option Nat) (t : Nat) : Bool :=
  match setAt with
  | none => false
  | some k => decide (k ≤ t)

/-- Model of `SSEStream._read_events` (`_sse.py` lines 85-92): iterate over chunks;
at the top of each iteration return if the stop flag is set; otherwise append
the chunk to the buffer and process every complete frame in it.  Returns the
frames handed to `_process_event_text`, with their timing. -/
def readLoop (setAt : Option Nat) : Nat → Str → List Str → List ProcFrame
  | _, _, [] => []
  | t, buf, chunk :: chunks =>
    if stopSeen setAt t then []
    else
      let p := extractFrames (buf ++ chunk)
      (p.1.enum.map fun ie => ⟨t, t + 1 + ie.1, ie.2⟩)
        ++ readLoop setAt (t + 1 + p.1.length) p.2 chunks

/-! ## JSON values and Python-level exceptions

`json.loads` is Python stdlib, external to this repository; frames are
decoded through an abstract parameter `parse : Str → Option Json`
(`none` models `json.JSONDecodeError`).  Python exceptions that the
repository's own code can raise while handling a decoded value are
modelled explicitly. -/

/-- A decoded JSON value.  Numbers are irrelevant to every claim and are
modelled as integers; objects are insertion-ordered key/value lists, as
Python dicts are. -/
inductive Json where
  | null
  | bool (b : Bool)
  | num (n : Int)
  | str (s : Str)
  | arr (elems : List Json)
  | obj (entries : List (Str × Json))

/-- Python-level exceptions raised by the repository's own handling code
(not caught by `_process_event_text`, hence terminating the decode loop). -/
inductive PyExn where
  /-- Raised when `.get` or `.items` is called on a value that is not a dict. -/
  | attributeError
  /-- Raised by `for v in x` over a non-iterable value. -/
  | typeError
deriving DecidableEq

/-- Python dict lookup (`d.get(k)` / `d[k]`), first matching key. -/
def jLookup (entries : List (Str × Json)) (k : Str) : Option Json :=
  match entries with
  | [] => none
  | (k', v) :: rest => if k' = k then some v else jLookup rest k

/-- Model of `for v in x`: Python iteration over a decoded JSON value — lists yield
elements, strings yield 1-character strings, dicts yield their keys;
anything else raises `TypeError`. -/
def pyIter : Json → Except PyExn (List Json)
  | .arr xs => .ok xs
  | .str s => .ok (s.map fun c => .str [c])
  | .obj kvs => .ok (kvs.map fun kv => .str kv.1)
  | _ => .error .typeError

/-! ## Value models (`models.py`) -/

/-- Model of `VQT` (`models.py` lines 85-99): a value/quality/timestamp triple.
Field values are whatever JSON the payload held (Python does not enforce
the annotations). -/
structure VQT where
  value : Json
  quality : Json
  timestamp : Json

/-- Model of `VQT.from_dict`: `data.get("value")`, `data.get("quality", "")`,
`data.get("timestamp", "")`; calling `.get` on a non-dict raises. -/
def VQT.from_dict : Json → Except PyExn VQT
  | .obj kvs =>
    .ok ⟨(jLookup kvs (strL "value")).getD .null,
         (jLookup kvs (strL "quality")).getD (.str []),
         (jLookup kvs (strL "timestamp")).getD (.str [])⟩
  | _ => .error .attributeError

/-- The list comprehension `[VQT.from_dict(v) for v in data]`. -/
def vqtList : List Json → Except PyExn (List VQT)
  | [] => .ok []
  | v :: rest =>
    match VQT.from_dict v with
    | .error e => .error e
    | .ok q =>
      match vqtList rest with
      | .error e => .error e
      | .ok qs => .ok (q :: qs)

def dataKey : Str := strL "data"

/-- Model of `[VQT.from_dict(v) for v in value_data.get("data", [])]`
(shared by `LastKnownValue.from_response` and
`ValueChange.from_stream_event`). -/
def vqtsOf (kvs : List (Str × Json)) : Except PyExn (List VQT) :=
  match jLookup kvs dataKey with
  | none => .ok []
  | some d =>
    match pyIter d with
    | .error e => .error e
    | .ok items => vqtList items

/-- Model of `LastKnownValue` (`models.py` lines 102-119): last known value of an
element, children recursively parsed. -/
inductive LastKnownValue where
  | mk (element_id : Str) (data : List VQT)
       (children : List (Str × LastKnownValue))

def LastKnownValue.element_id : LastKnownValue → Str
  | .mk e _ _ => e

def LastKnownValue.data : LastKnownValue → List VQT
  | .mk _ d _ => d

def LastKnownValue.children : LastKnownValue → List (Str × LastKnownValue)
  | .mk _ _ c => c

mutual

/-- Model of `LastKnownValue.from_response` (`models.py` lines 110-119): parse the
`data` list into VQTs and recursively parse every other key as a child.
The payload must be a dict for `.get`/`.items` to work. -/
def LastKnownValue.from_response (element_id : Str) (value_data : Json) :
    Except PyExn LastKnownValue :=
  match value_data with
  | .obj kvs =>
    match vqtsOf kvs with
    | .error e => .error e
    | .ok vqts =>
      match LastKnownValue.childList kvs with
      | .error e => .error e
      | .ok children => .ok (.mk element_id vqts children)
  | _ => .error .attributeError
termination_by sizeOf value_data

/-- The `for key, child_data in value_data.items(): if key == "data":
continue; children[key] = cls.from_response(key, child_data)` loop. -/
def LastKnownValue.childList :
    List (Str × Json) → Except PyExn (List (Str × LastKnownValue))
  | [] => .ok []
  | (k, v) :: rest =>
    if k = dataKey then LastKnownValue.childList rest
    else
      match LastKnownValue.from_response k v with
      | .error e => .error e
      | .ok c =>
        match LastKnownValue.childList rest with
        | .error e => .error e
        | .ok cs => .ok ((k, c) :: cs)
termination_by kvs => sizeOf kvs

end

/-- What a child slot of a stream `ValueChange` holds.  The Python field is
`children: dict[str, Any]`; the code stores the raw payload sub-value,
a recursive parse would store a `LastKnownValue`.  The sum distinguishes
the two observationally. -/
inductive ChildVal where
  | raw (j : Json)
  | parsed (l : LastKnownValue)

/-- Model of `ValueChange` (`models.py` lines 122-141): one value-change record
decoded from a stream event. -/
structure ValueChange where
  element_id : Str
  data : List VQT
  children : List (Str × ChildVal)

/-- The body of the `for element_id, value_data in event_data.items()` loop
of `from_stream_event`: each value must be a dict; its `data` key becomes
VQTs and all other keys are kept raw. -/
def ValueChange.ofEntry (eid : Str) (value_data : Json) :
    Except PyExn ValueChange :=
  match value_data with
  | .obj kvs =>
    match vqtsOf kvs with
    | .error e => .error e
    | .ok vqts =>
      .ok ⟨eid, vqts,
           (kvs.filter fun kv => !(kv.1 == dataKey)).map
             fun kv => (kv.1, ChildVal.raw kv.2)⟩
  | _ => .error .attributeError

/-- The loop of `from_stream_event` over all `(element_id, value_data)`
entries, in dict order. -/
def ValueChange.entryLoop :
    List (Str × Json) → Except PyExn (List ValueChange)
  | [] => .ok []
  | (eid, vd) :: rest =>
    match ValueChange.ofEntry eid vd with
    | .error e => .error e
    | .ok c =>
      match ValueChange.entryLoop rest with
      | .error e => .error e
      | .ok cs => .ok (c :: cs)

/-- Model of `ValueChange.from_stream_event` (`models.py` lines 130-141): a stream
event dict maps element ids to snapshot-shaped payloads; each becomes one
`ValueChange`.  `event_data.items()` on a non-dict raises. -/
def ValueChange.from_stream_event (event_data : Json) :
    Except PyExn (List ValueChange) :=
  match event_data with
  | .obj entries => ValueChange.entryLoop entries
  | _ => .error .attributeError

/-! ## `SSEStream._process_event_text` (`_sse.py` lines 94-122) -/

/-- Python `str.strip()` whitespace set. -/
def pySpaceChar (c : Char) : Bool :=
  c == ' ' || c == '\t' || c == '\n' || c == '\r' || c == '\x0B' || c == '\x0C'

/-- Python `s.strip()`: remove all leading and trailing whitespace. -/
def pyStrip (s : Str) : Str :=
  ((s.dropWhile pySpaceChar).reverse.dropWhile pySpaceChar).reverse

/-- The `for line in event_text.split("\n")` loop collecting `data_lines`:
a line starting with `"data:"` contributes `line[5:].strip()`; the
`elif line.startswith("data: ")` branch is kept as in the source. -/
def extractDataLines (event_text : Str) : List Str :=
  (event_text.splitOn '\n').foldl
    (fun acc line =>
      if (strL "data:").isPrefixOf line then acc ++ [pyStrip (line.drop 5)]
      else if (strL "data: ").isPrefixOf line then acc ++ [line.drop 6]
      else acc)
    []

/-- Model of `data_str = "\n".join(data_lines)`: the reconstructed JSON document of
a frame. -/
def dataStrOf (event_text : Str) : Str :=
  (strL "\n").intercalate (extractDataLines event_text)

/-- One sink invocation: the batch of value changes handed to `on_event`. -/
abbrev Batch := List ValueChange

/-- Model of `if changes: self._on_event(changes)` — emit a sink call only for a
non-empty change list. -/
def emitIfNonEmpty (changes : List ValueChange) : List Batch :=
  if changes.isEmpty then [] else [changes]

/-- The `for item in parsed` loop of the `isinstance(parsed, list)` branch:
decode each update map independently, emitting per-item batches, stopping
at the first uncaught exception. -/
def itemLoop : List Json → List Batch × Option PyExn
  | [] => ([], none)
  | item :: rest =>
    match ValueChange.from_stream_event item with
    | .error e => ([], some e)
    | .ok changes =>
      let p := itemLoop rest
      (emitIfNonEmpty changes ++ p.1, p.2)

/-- Dispatch on the parsed JSON value: a list is a sequence of update maps,
a dict is a single update map, anything else falls through silently. -/
def dispatchParsed (parsed : Json) : List Batch × Option PyExn :=
  match parsed with
  | .arr items => itemLoop items
  | .obj _ =>
    match ValueChange.from_stream_event parsed with
    | .error e => ([], some e)
    | .ok changes => (emitIfNonEmpty changes, none)
  | _ => ([], none)

/-- Model of `SSEStream._process_event_text`: reconstruct the frame's JSON document
from its `data:` lines, parse it, and dispatch.  Returns the sink batches
emitted for the frame and an uncaught Python exception, if any
(`json.JSONDecodeError` is caught: the frame is logged and skipped). -/
def processEventText (parse : Str → Option Json) (event_text : Str) :
    List Batch × Option PyExn :=
  let data_lines := extractDataLines event_text
  if data_lines.isEmpty then ([], none)
  else
    match parse (dataStrOf event_text) with
    | none => ([], none)
    | some parsed => dispatchParsed parsed

/-- Process a sequence of frames in order; an uncaught exception in a
frame terminates the loop (frames after it are never processed). -/
def processFrames (parse : Str → Option Json) :
    List Str → List Batch × Option PyExn
  | [] => ([], none)
  | f :: rest =>
    let p := processEventText parse f
    match p.2 with
    | some e => (p.1, some e)
    | none =>
      let q := processFrames parse rest
      (p.1 ++ q.1, q.2)

/-- The full decode pipeline of one reader: chunks in, sink batches out. -/
def sseBatches (parse : Str → Option Json) (setAt : Option Nat)
    (chunks : List Str) : List Batch × Option PyExn :=
  processFrames parse ((readLoop setAt 0 [] chunks).map ProcFrame.text)

/-! ## Error taxonomy (`errors.py`) and transport (`_transport.py`)

`errors.py` defines one class per error kind; `I3XError` is the base used
directly for generic request failures.  Note there is no separate
`NotConnected` class: `_ensure_open` raises `errors.ConnectionError`. -/

/-- The exception classes of `errors.py` (each a subclass of `I3XError`). -/
inductive ErrorClass where
  | i3xError
  | connectionError
  | authenticationError
  | notFoundError
  | serverError
  | timeoutError
  | subscriptionError
  | streamError
deriving DecidableEq

/-- A raised `I3XError`: its class, `message` (the Python `str()` of the
extracted detail is modelled as the JSON value itself), and `status_code`. -/
structure RaisedError where
  cls : ErrorClass
  message : Json
  status_code : Option Nat

/-- An HTTP response as the transport sees it: status code, the result of
`response.json()` (`none` models a decode failure raising), the raw text
and the `content-type` header. -/
structure Response where
  status_code : Nat
  jsonBody : Option Json
  text : Str
  content_type : Str

/-- Model of `_STATUS_MAP` (`_transport.py` lines 12-16). -/
def STATUS_MAP : List (Nat × ErrorClass) :=
  [(401, .authenticationError), (403, .authenticationError),
   (404, .notFoundError)]

/-- The error-message extraction of `_check_status` (lines 143-147):
`detail.get("detail", detail.get("message", response.text))`, falling back
to the raw text when the body is not a JSON dict. -/
def errMessageOf (r : Response) : Json :=
  match r.jsonBody with
  | some (.obj kvs) =>
    (jLookup kvs (strL "detail")).getD
      ((jLookup kvs (strL "message")).getD (.str r.text))
  | _ => .str r.text

/-- Model of `Transport._check_status` (lines 133-148): below 400 nothing is raised;
otherwise the class comes from `_STATUS_MAP`, else `ServerError` for
`status_code >= 500`, else the base `I3XError`; the numeric status code is
attached. -/
def check_status (r : Response) : Option RaisedError :=
  if r.status_code < 400 then none
  else
    let cls :=
      match STATUS_MAP.lookup r.status_code with
      | some c => c
      | none =>
        if 500 ≤ r.status_code then ErrorClass.serverError
        else ErrorClass.i3xError
    some ⟨cls, errMessageOf r, some r.status_code⟩

/-- Outcome of one attempted HTTP exchange, as seen by the transport:
either a response arrived, or `httpx` raised. -/
inductive NetResult where
  | response (r : Response)
  | connectError
  | timeoutExc
  | httpError

/-- Failures propagating out of a transport call: a typed `I3XError`, or an
uncaught Python-level exception. -/
inductive Failure where
  | raised (e : RaisedError)
  | pyExn (e : PyExn)

/-- The decode tail of `_request` (lines 126-131): 204 returns `None`; a
JSON content type returns `response.json()` (raising if the body is not
valid JSON, modelled by `jsonBody = none`); otherwise the raw text. -/
def decode_response (r : Response) : Except Failure Json :=
  if r.status_code = 204 then .ok .null
  else if (strL "application/json") <:+: r.content_type then
    match r.jsonBody with
    | some j => .ok j
    | none => .error (.pyExn .typeError)
  else .ok (.str r.text)

/-- The error raised by `_ensure_open` (lines 68-71) on a closed transport:
`errors.ConnectionError("Transport is not connected. Call open() first.")`. -/
def notConnectedError : RaisedError :=
  ⟨.connectionError,
   .str (strL "Transport is not connected. Call open() first."), none⟩

/-- Model of `Transport._request` (lines 107-131): map `httpx.ConnectError` to
`errors.ConnectionError`, `httpx.TimeoutException` to `errors.TimeoutError`,
any other `httpx.HTTPError` to the base `I3XError` (exception text
abstracted as the empty string); on a response, `_check_status` then decode. -/
def request_result (net : NetResult) : Except Failure Json :=
  match net with
  | .connectError => .error (.raised ⟨.connectionError, .str [], none⟩)
  | .timeoutExc => .error (.raised ⟨.timeoutError, .str [], none⟩)
  | .httpError => .error (.raised ⟨.i3xError, .str [], none⟩)
  | .response r =>
    match check_status r with
    | some e => .error (.raised e)
    | none => decode_response r

/-- Model of the `Transport` state: base url, credential pair, and the `httpx.Client`
handle (`none` = closed).  Timeout and header details carry no weight in
any claim and are omitted from the state. -/
structure Transport where
  base_url : Str
  auth : Option (Str × Str)
  client : Option Unit

def Transport.is_open (s : Transport) : Bool := s.client.isSome

/-- The shared shape of `Transport.get/post/put/delete` (lines 73-87):
`_ensure_open` then `_request`.  Returns the call's outcome and whether a
request was actually issued on the wire. -/
def Transport.requestPath (s : Transport) (net : NetResult) :
    Except Failure Json × Bool :=
  match s.client with
  | none => (.error (.raised notConnectedError), false)
  | some _ => (request_result net, true)

def Transport.get (s : Transport) (net : NetResult) :
    Except Failure Json × Bool := s.requestPath net

def Transport.post (s : Transport) (net : NetResult) :
    Except Failure Json × Bool := s.requestPath net

def Transport.put (s : Transport) (net : NetResult) :
    Except Failure Json × Bool := s.requestPath net

def Transport.delete (s : Transport) (net : NetResult) :
    Except Failure Json × Bool := s.requestPath net

/-- Model of `Transport.stream_get` (lines 89-105): `_ensure_open`, send, then
`_check_status`; only `httpx.ConnectError` and `httpx.TimeoutException`
are mapped (any other `httpx.HTTPError` propagates raw, modelled as an
uncaught Python-level exception). -/
def Transport.stream_get (s : Transport) (net : NetResult) :
    Except Failure Response × Bool :=
  match s.client with
  | none => (.error (.raised notConnectedError), false)
  | some _ =>
    match net with
    | .connectError => (.error (.raised ⟨.connectionError, .str [], none⟩), true)
    | .timeoutExc => (.error (.raised ⟨.timeoutError, .str [], none⟩), true)
    | .httpError => (.error (.pyExn .typeError), true)
    | .response r =>
      match check_status r with
      | some e => (.error (.raised e), true)
      | none => (.ok r, true)

/-- Model of `Transport.open` (lines 41-60): no-op when already open; otherwise
create the client, then probe with `self.get("/namespaces")`; on any
probe exception, `self.close()` and re-raise.  `probe` is the network
outcome of that probe request. -/
def Transport.openConn (s : Transport) (probe : NetResult) :
    Transport × Except Failure Unit :=
  match s.client with
  | some _ => (s, .ok ())
  | none =>
    let s' : Transport := { s with client := some () }
    match (s'.get probe).1 with
    | .ok _ => (s', .ok ())
    | .error e => ({ s' with client := none }, .error e)

/-- Model of `Transport.close` (lines 62-66): idempotent teardown. -/
def Transport.closeConn (s : Transport) : Transport :=
  { s with client := none }

/-- Class of the typed error a transport call failed with, if any. -/
def errClassOf : Except Failure Json × Bool → Option ErrorClass
  | (.error (.raised e), _) => some e.cls
  | _ => none

/-! ## Subscription registry (`_subscription.py`) -/

/-- The per-subscription stream handle the registry stores (the `SSEStream`
constructed in `add`; its identity is its subscription id). -/
structure SSEHandle where
  subscription_id : Str
deriving DecidableEq

/-- Model of the `SubscriptionManager` state: the `_streams` dict, insertion-ordered. -/
structure SubscriptionManager where
  streams : List (Str × SSEHandle)
deriving DecidableEq

/-- Model of `SubscriptionManager.add` (lines 31-42): no-op when an entry exists,
otherwise store a fresh stream keyed by the id (and `start()` it). -/
def SubscriptionManager.add (m : SubscriptionManager) (s : Str) :
    SubscriptionManager :=
  if (m.streams.map Prod.fst).contains s then m
  else ⟨m.streams ++ [(s, ⟨s⟩)]⟩

/-- Model of `SubscriptionManager.remove` (lines 44-48): pop the entry; if present,
`stop()` the stream.  Returns the new state and the list of handles that
got stopped. -/
def SubscriptionManager.remove (m : SubscriptionManager) (s : Str) :
    SubscriptionManager × List SSEHandle :=
  match m.streams.lookup s with
  | none => (m, [])
  | some h => (⟨m.streams.filter fun kv => !(kv.1 == s)⟩, [h])

/-- Model of `SubscriptionManager.stop_all` (lines 50-54): stop every stream and
clear the dict. -/
def SubscriptionManager.stop_all (m : SubscriptionManager) :
    SubscriptionManager × List SSEHandle :=
  (⟨[]⟩, m.streams.map Prod.snd)

/-- The registry operations a caller can perform. -/
inductive RegOp where
  | add (s : Str)
  | remove (s : Str)
  | stopAll

def regStep (m : SubscriptionManager) : RegOp → SubscriptionManager
  | .add s => m.add s
  | .remove s => (m.remove s).1
  | .stopAll => (m.stop_all).1

/-- Run a sequence of registry operations from the empty registry. -/
def runOps (ops : List RegOp) : SubscriptionManager :=
  ops.foldl regStep ⟨[]⟩

/-- Number of readers the registry holds for subscription id `s`. -/
def readerCount (m : SubscriptionManager) (s : Str) : Nat :=
  (m.streams.map Prod.fst).count s

/-! ## Auxiliary predicates and fixtures used by the statements -/

/-- A JSON value that is neither an object nor an array. -/
def jsonScalar : Json → Bool
  | .null | .bool _ | .num _ | .str _ => true
  | .arr _ | .obj _ => false

def isObjJson : Json → Bool
  | .obj _ => true
  | _ => false

/-- A payload is snapshot-shaped (spec §3): a JSON object with pairwise
distinct keys whose `data` entry, if any, is a list of objects and whose
every other entry is recursively snapshot-shaped. -/
inductive SnapshotShaped : Json → Prop where
  | mk (kvs : List (Str × Json)) :
      (kvs.map Prod.fst).Nodup →
      (∀ k v, (k, v) ∈ kvs → k = dataKey →
        ∃ xs, v = .arr xs ∧ ∀ x ∈ xs, isObjJson x = true) →
      (∀ k v, (k, v) ∈ kvs → k ≠ dataKey → SnapshotShaped v) →
      SnapshotShaped (.obj kvs)

/-- Modelled from the spec's words, for the refinement comparison of the
framing claim: the payload of a `data:` line is the text after the marker
with at most one leading space removed, all other characters preserved. -/
def specDataPayload (line : Str) : Str :=
  match line.drop 5 with
  | ' ' :: rest => rest
  | p => p

/-- A sample parser fixture: decodes the three-character document `EV` to a
one-element update map and nothing else. -/
def parseEvOnly : Str → Option Json :=
  fun s =>
    if s = strL "EV" then
      some (.obj [(strL "e", .obj [(dataKey, .arr [.obj []])])])
    else none

/-- A sample parser fixture: decodes the document `5` and nothing else. -/
def parseNumOnly : Str → Option Json :=
  fun s => if s = strL "5" then some (.num 5) else none

/-! ## General lemmas -/

/-- Appending to the buffer does not change the leftmost frame boundary. -/
theorem splitFirstNN_append {buf ev rest : Str} (x : Str)
    (h : splitFirstNN buf = some (ev, rest)) :
    splitFirstNN (buf ++ x) = some (ev, rest ++ x) := by
  induction buf generalizing ev with
  | nil => simp [splitFirstNN] at h
  | cons c cs ih =>
    rw [splitFirstNN] at h
    rw [List.cons_append, splitFirstNN]
    split at h
    · rename_i hc
      obtain ⟨h1, h2⟩ := hc
      cases cs with
      | nil => simp at h2
      | cons d ds =>
        simp only [List.head?_cons, Option.some.injEq] at h2
        simp only [Option.some.injEq, Prod.mk.injEq] at h
        obtain ⟨he, hr⟩ := h
        subst he
        simp only [List.tail_cons] at hr
        subst hr
        simp [h1, h2]
    · rename_i hc
      cases cs with
      | nil =>
        simp [splitFirstNN] at h
      | cons d ds =>
        have hc' : ¬(c = '\n' ∧ ((d :: ds : Str) ++ x).head? = some '\n') := by
          simpa using hc
        rw [if_neg hc']
        rcases hsp : splitFirstNN (d :: ds) with _ | ⟨p1, p2⟩ <;> rw [hsp] at h
        · simp at h
        · simp only [Option.map_some', Option.some.injEq, Prod.mk.injEq] at h
          obtain ⟨he, hr⟩ := h
          subst hr
          have he' : p1 = ev.tail := by cases he; rfl
          cases he
          rw [ih hsp]
          simp

theorem extractFrames_none {buf : Str} (h : splitFirstNN buf = none) :
    extractFrames buf = ([], buf) := by
  rw [extractFrames.eq_def]
  split <;> simp_all

theorem extractFrames_some {buf ev rest : Str}
    (h : splitFirstNN buf = some (ev, rest)) :
    extractFrames buf = (ev :: (extractFrames rest).1, (extractFrames rest).2) := by
  rw [extractFrames.eq_def]
  split <;> simp_all

/-- The leftover buffer contains no frame separator. -/
theorem splitFirstNN_extractFrames_leftover (buf : Str) :
    splitFirstNN (extractFrames buf).2 = none := by
  induction buf using extractFrames.induct with
  | case1 buf h => rw [extractFrames_none h]; exact h
  | case2 buf ev rest h ih => rw [extractFrames_some h]; exact ih

/-- Chunk-extension lemma: extracting frames from `a ++ b` yields the frames
of `a` followed by the frames of `a`'s leftover extended with `b`. -/
theorem extractFrames_append (a b : Str) :
    extractFrames (a ++ b) =
      ((extractFrames a).1 ++ (extractFrames ((extractFrames a).2 ++ b)).1,
       (extractFrames ((extractFrames a).2 ++ b)).2) := by
  induction a using extractFrames.induct with
  | case1 a h =>
    rw [extractFrames_none h]
    simp
  | case2 a ev rest h ih =>
    rw [extractFrames_some (splitFirstNN_append b h), extractFrames_some h, ih]
    simp

/-- With the stop flag never set, the frames processed by the chunked loop
are exactly the frames extracted from the whole concatenated buffer. -/
theorem readLoop_none_frames (chunks : List Str) (t : Nat) (buf : Str)
    (hbuf : splitFirstNN buf = none) :
    (readLoop none t buf chunks).map ProcFrame.text
      = (extractFrames (buf ++ chunks.flatten)).1 := by
  induction chunks generalizing t buf with
  | nil =>
    simp [readLoop, extractFrames_none hbuf]
  | cons c cs ih =>
    rw [readLoop]
    simp only [stopSeen, Bool.false_eq_true, if_neg (by simp : ¬False)]
    conv_rhs =>
      rw [List.flatten_cons, show buf ++ (c ++ cs.flatten) = (buf ++ c) ++ cs.flatten by simp,
        extractFrames_append (buf ++ c) cs.flatten]
    simp only [List.map_append]
    rw [ih _ _ (splitFirstNN_extractFrames_leftover (buf ++ c))]
    congr 1
    rw [List.map_map]
    rw [show (ProcFrame.text ∘ fun ie : Nat × Str => ProcFrame.mk t (t + 1 + ie.1) ie.2)
          = Prod.snd from rfl]
    exact List.enum_map_snd _

/-- Every frame the loop processes was sanctioned by a top-of-iteration
check that observed the flag unset: its check time precedes the moment the
flag was set, and processing happens strictly after the check. -/
theorem readLoop_checkTime_lt (k : Nat) (chunks : List Str) (t : Nat) (buf : Str)
    (pf : ProcFrame) (hpf : pf ∈ readLoop (some k) t buf chunks) :
    pf.checkTime < k ∧ pf.checkTime < pf.procTime := by
  induction chunks generalizing t buf with
  | nil => simp [readLoop] at hpf
  | cons c cs ih =>
    rw [readLoop] at hpf
    by_cases hstop : stopSeen (some k) t = true
    · simp [hstop] at hpf
    · rw [if_neg hstop] at hpf
      simp only [stopSeen, decide_eq_true_eq] at hstop
      rcases List.mem_append.mp hpf with hin | hin
      · obtain ⟨ie, _, heq⟩ := List.mem_map.mp hin
        subst heq
        exact ⟨show t < k by omega, show t < t + 1 + ie.1 by omega⟩
      · exact ih _ _ hin

/-! ## Status-mapping lemmas (`_transport.py`) -/

theorem lookup_STATUS_MAP (n : Nat) :
    STATUS_MAP.lookup n
      = if n = 401 then some ErrorClass.authenticationError
        else if n = 403 then some ErrorClass.authenticationError
        else if n = 404 then some ErrorClass.notFoundError
        else none := by
  by_cases a : n = 401
  · subst a; rfl
  by_cases b : n = 403
  · subst b; rfl
  by_cases c : n = 404
  · subst c; rfl
  rw [if_neg a, if_neg b, if_neg c]
  have ha : (n == 401) = false := by simpa using a
  have hb : (n == 403) = false := by simpa using b
  have hc : (n == 404) = false := by simpa using c
  simp [STATUS_MAP, List.lookup, ha, hb, hc]

/-- C3 (amended): for every response with status `>= 400` the raised error
kind is `AuthenticationError` for 401/403, `NotFoundError` for 404,
`ServerError` for every status `>= 500` (not only 500-599), and the base
`I3XError` for the remaining 4xx; the numeric status code is preserved. -/
theorem c3_status_error_mapping (r : Response) (h : 400 ≤ r.status_code) :
    ∃ e, check_status r = some e
      ∧ e.status_code = some r.status_code
      ∧ e.cls = (if r.status_code = 401 ∨ r.status_code = 403 then
                   ErrorClass.authenticationError
                 else if r.status_code = 404 then ErrorClass.notFoundError
                 else if 500 ≤ r.status_code then ErrorClass.serverError
                 else ErrorClass.i3xError) := by
  simp only [check_status]
  rw [if_neg (by omega)]
  refine ⟨_, rfl, rfl, ?_⟩
  simp only [lookup_STATUS_MAP]
  by_cases h1 : r.status_code = 401
  · simp [h1]
  by_cases h2 : r.status_code = 403
  · simp [h1, h2]
  by_cases h3 : r.status_code = 404
  · simp [h1, h2, h3]
  simp [h1, h2, h3]

/-- Witness for the status-mapping theorem at the plain-4xx status 418. -/
theorem c3_status_error_mapping_witness :
    ∃ e, check_status ⟨418, none, [], []⟩ = some e
      ∧ e.status_code = some 418
      ∧ e.cls = (if (418 : Nat) = 401 ∨ (418 : Nat) = 403 then
                   ErrorClass.authenticationError
                 else if (418 : Nat) = 404 then ErrorClass.notFoundError
                 else if 500 ≤ (418 : Nat) then ErrorClass.serverError
                 else ErrorClass.i3xError) :=
  c3_status_error_mapping ⟨418, none, [], []⟩ (by decide)

/-- Counterexample to C3 as stated: status 600 is not in 500-599, so the
claim requires the generic kind, but `_check_status` maps every status
`>= 500` to `ServerError`. -/
theorem c3_cx_status_600 :
    (check_status ⟨600, none, [], []⟩).map RaisedError.cls
        = some ErrorClass.serverError
      ∧ ErrorClass.serverError ≠ ErrorClass.i3xError := by
  exact ⟨rfl, by decide⟩

/-- C4: when the transport is closed and the liveness probe fails, `open`
tears the client down before propagating exactly the probe's error, so the
transport observably stays closed; and `open` on an open transport is a
no-op. -/
theorem c4_open_probe_rollback (s : Transport) (p : NetResult) (e : Failure)
    (hclosed : s.client = none) (hfail : request_result p = .error e) :
    (s.openConn p).1.is_open = false
      ∧ (s.openConn p).2 = .error e
      ∧ (∀ (s2 : Transport) (p2 : NetResult),
          s2.is_open = true → s2.openConn p2 = (s2, .ok ())) := by
  refine ⟨?_, ?_, ?_⟩
  · simp [Transport.openConn, hclosed, Transport.get, Transport.requestPath,
      hfail, Transport.is_open]
  · simp [Transport.openConn, hclosed, Transport.get, Transport.requestPath,
      hfail]
  · intro s2 p2 hopen
    rcases hc : s2.client with _ | u
    · simp [Transport.is_open, hc] at hopen
    · simp [Transport.openConn, hc]

/-- Witness: the spec's scenario — probe answered by HTTP 500 leaves the
transport closed and raises `ServerError` carrying status 500. -/
theorem c4_open_probe_rollback_witness :
    ((⟨strL "http://h", none, none⟩ : Transport).openConn
        (.response ⟨500, none, [], []⟩)).1.is_open = false
      ∧ ((⟨strL "http://h", none, none⟩ : Transport).openConn
          (.response ⟨500, none, [], []⟩)).2
          = .error (.raised ⟨.serverError, .str [], some 500⟩)
      ∧ (∀ (s2 : Transport) (p2 : NetResult),
          s2.is_open = true → s2.openConn p2 = (s2, .ok ())) :=
  c4_open_probe_rollback _ _ _ rfl rfl

/-- C9 (amended): every request path on a closed transport fails with the
single `errors.ConnectionError` class (there is no separate `NotConnected`
class in the code) and no request is issued. -/
theorem c9_requests_require_open (s : Transport) (net : NetResult)
    (h : s.client = none) :
    s.get net = (.error (.raised notConnectedError), false)
      ∧ s.post net = (.error (.raised notConnectedError), false)
      ∧ s.put net = (.error (.raised notConnectedError), false)
      ∧ s.delete net = (.error (.raised notConnectedError), false)
      ∧ s.stream_get net = (.error (.raised notConnectedError), false)
      ∧ notConnectedError.cls = ErrorClass.connectionError := by
  simp [Transport.get, Transport.post, Transport.put, Transport.delete,
    Transport.requestPath, Transport.stream_get, h, notConnectedError]

/-- Witness for the not-connected behaviour at a concrete closed transport. -/
theorem c9_requests_require_open_witness :
    (⟨strL "u", none, none⟩ : Transport).get .httpError
        = (.error (.raised notConnectedError), false)
      ∧ (⟨strL "u", none, none⟩ : Transport).post .httpError
        = (.error (.raised notConnectedError), false)
      ∧ (⟨strL "u", none, none⟩ : Transport).put .httpError
        = (.error (.raised notConnectedError), false)
      ∧ (⟨strL "u", none, none⟩ : Transport).delete .httpError
        = (.error (.raised notConnectedError), false)
      ∧ (⟨strL "u", none, none⟩ : Transport).stream_get .httpError
        = (.error (.raised notConnectedError), false)
      ∧ notConnectedError.cls = ErrorClass.connectionError :=
  c9_requests_require_open ⟨strL "u", none, none⟩ .httpError rfl

/-- Counterexample to C9 as stated: the kind raised for a call on a closed
transport and the kind raised for a network-level connect failure of an
open transport are the same `ConnectionError` class — the claimed distinct
`NotConnected` kind does not exist in the code. -/
theorem c9_cx_same_error_class :
    errClassOf ((⟨strL "u", none, none⟩ : Transport).get .httpError)
        = some ErrorClass.connectionError
      ∧ errClassOf ((⟨strL "u", none, some ()⟩ : Transport).get .connectError)
        = some ErrorClass.connectionError
      ∧ ¬ (errClassOf ((⟨strL "u", none, none⟩ : Transport).get .httpError)
            ≠ errClassOf ((⟨strL "u", none, some ()⟩ : Transport).get .connectError)) := by
  refine ⟨rfl, rfl, fun hne => hne rfl⟩

/-! ## Registry lemmas (`_subscription.py`) -/

theorem regStep_nodup {m : SubscriptionManager} (op : RegOp)
    (h : (m.streams.map Prod.fst).Nodup) :
    ((regStep m op).streams.map Prod.fst).Nodup := by
  cases op with
  | add s =>
    simp only [regStep, SubscriptionManager.add]
    split
    · exact h
    · rename_i hc
      simp only [List.contains, List.elem_eq_mem, decide_eq_true_eq] at hc
      simp only [List.map_append, List.map_cons, List.map_nil]
      refine List.Nodup.append h (List.nodup_singleton s) ?_
      intro a ha hb
      simp only [List.mem_singleton] at hb
      subst hb
      exact hc ha
  | remove s =>
    simp only [regStep, SubscriptionManager.remove]
    rcases hl : m.streams.lookup s with _ | hh
    · simpa
    · exact ((List.filter_sublist _).map Prod.fst).nodup h
  | stopAll =>
    simp [regStep, SubscriptionManager.stop_all]

theorem foldl_regStep_nodup (ops : List RegOp) (m : SubscriptionManager)
    (h : (m.streams.map Prod.fst).Nodup) :
    (((ops.foldl regStep m).streams.map Prod.fst)).Nodup := by
  induction ops generalizing m with
  | nil => simpa
  | cons op ops ih => exact ih _ (regStep_nodup op h)

theorem count_le_one_of_nodup (l : List Str) (h : l.Nodup) (a : Str) :
    l.count a ≤ 1 := by
  induction l with
  | nil => simp
  | cons x xs ih =>
    obtain ⟨hx, hxs⟩ := List.nodup_cons.mp h
    rw [List.count_cons]
    by_cases hax : a = x
    · subst hax
      rw [List.count_eq_zero.mpr hx]
      simp
    · have hb : (x == a) = false := beq_eq_false_iff_ne.mpr (fun he => hax he.symm)
      simp only [hb, if_false]
      simpa using ih hxs

theorem count_eq_one_of_nodup_mem {l : List Str} {a : Str} (h : l.Nodup)
    (hm : a ∈ l) : l.count a = 1 := by
  induction l with
  | nil => simp at hm
  | cons x xs ih =>
    obtain ⟨hx, hxs⟩ := List.nodup_cons.mp h
    rw [List.count_cons]
    rcases List.mem_cons.mp hm with rfl | hm2
    · rw [List.count_eq_zero.mpr hx]
      simp
    · have hax : ¬ a = x := fun he => hx (he ▸ hm2)
      have hb : (x == a) = false := beq_eq_false_iff_ne.mpr (fun he => hax he.symm)
      simp only [hb, if_false]
      simpa using ih hxs hm2

theorem add_idem (m : SubscriptionManager) (s : Str) :
    (m.add s).add s = m.add s := by
  have hmem : ((m.add s).streams.map Prod.fst).contains s = true := by
    simp only [SubscriptionManager.add]
    split
    · assumption
    · simp only [List.contains, List.elem_eq_mem, decide_eq_true_eq,
        List.map_append, List.map_cons, List.map_nil]
      exact List.mem_append_right _ (List.mem_singleton_self s)
  conv_lhs => rw [SubscriptionManager.add, if_pos hmem]

theorem readerCount_add_self (m : SubscriptionManager) (s : Str)
    (h : (m.streams.map Prod.fst).Nodup) : readerCount (m.add s) s = 1 := by
  simp only [readerCount, SubscriptionManager.add]
  split
  · rename_i hc
    simp only [List.contains, List.elem_eq_mem, decide_eq_true_eq] at hc
    exact count_eq_one_of_nodup_mem h hc
  · rename_i hc
    simp only [List.contains, List.elem_eq_mem, decide_eq_true_eq] at hc
    rw [List.map_append, List.count_append, List.count_eq_zero.mpr hc]
    simp

theorem remove_absent (m : SubscriptionManager) (s : Str)
    (h : m.streams.lookup s = none) : m.remove s = (m, []) := by
  simp [SubscriptionManager.remove, h]

theorem remove_present (m : SubscriptionManager) (s : Str) (hh : SSEHandle)
    (h : m.streams.lookup s = some hh) :
    readerCount (m.remove s).1 s = 0 ∧ (m.remove s).2 = [hh] := by
  constructor
  · simp only [SubscriptionManager.remove, h, readerCount]
    rw [List.count_eq_zero]
    intro hmem
    obtain ⟨kv, hkv, hfst⟩ := List.mem_map.mp hmem
    have hp := List.of_mem_filter hkv
    simp [hfst] at hp
  · simp [SubscriptionManager.remove, h]

/-- C6: for every operation sequence the registry holds at most one reader
per subscription id; `add` twice in a row is the same as `add` once and
yields exactly one reader; `remove` of an absent id is a no-op and `remove`
of a present id deletes and stops exactly that reader. -/
theorem c6_registry_single_reader (ops : List RegOp) (s : Str)
    (m : SubscriptionManager) (hm : (m.streams.map Prod.fst).Nodup) :
    readerCount (runOps ops) s ≤ 1
      ∧ (m.add s).add s = m.add s
      ∧ readerCount (m.add s) s = 1
      ∧ (m.streams.lookup s = none → m.remove s = (m, []))
      ∧ (∀ hh, m.streams.lookup s = some hh →
          readerCount (m.remove s).1 s = 0 ∧ (m.remove s).2 = [hh]) := by
  refine ⟨?_, add_idem m s, readerCount_add_self m s hm,
    remove_absent m s, fun hh hl => remove_present m s hh hl⟩
  exact count_le_one_of_nodup _ (foldl_regStep_nodup ops ⟨[]⟩ (by simp)) s

/-- Witness: two successive `add`s of the same id from the empty registry. -/
theorem c6_registry_single_reader_witness :
    readerCount (runOps [.add (strL "s1"), .add (strL "s1")]) (strL "s1") ≤ 1
      ∧ ((⟨[]⟩ : SubscriptionManager).add (strL "s1")).add (strL "s1")
          = (⟨[]⟩ : SubscriptionManager).add (strL "s1")
      ∧ readerCount ((⟨[]⟩ : SubscriptionManager).add (strL "s1")) (strL "s1") = 1
      ∧ ((⟨[]⟩ : SubscriptionManager).streams.lookup (strL "s1") = none →
          (⟨[]⟩ : SubscriptionManager).remove (strL "s1")
            = ((⟨[]⟩ : SubscriptionManager), []))
      ∧ (∀ hh, (⟨[]⟩ : SubscriptionManager).streams.lookup (strL "s1") = some hh →
          readerCount ((⟨[]⟩ : SubscriptionManager).remove (strL "s1")).1 (strL "s1") = 0
            ∧ ((⟨[]⟩ : SubscriptionManager).remove (strL "s1")).2 = [hh]) :=
  c6_registry_single_reader [.add (strL "s1"), .add (strL "s1")] (strL "s1")
    ⟨[]⟩ (by simp)

/-! ## Framing and decode-loop claims -/

/-- C1: with the stop flag never set, delivering the byte stream in any
chunking hands `_process_event_text` the same frame sequence, and hence
produces the same decoded update batches in the same order, as delivering
the whole buffer as one chunk. -/
theorem c1_chunk_boundary_independence (parse : Str → Option Json)
    (chunks : List Str) :
    sseBatches parse none chunks = sseBatches parse none [chunks.flatten]
      ∧ (readLoop none 0 [] chunks).map ProcFrame.text
          = (readLoop none 0 [] [chunks.flatten]).map ProcFrame.text := by
  have h1 := readLoop_none_frames chunks 0 [] rfl
  have h2 := readLoop_none_frames [chunks.flatten] 0 [] rfl
  have hj : ([chunks.flatten] : List Str).flatten = chunks.flatten := by simp
  rw [hj] at h2
  refine ⟨?_, h1.trans h2.symm⟩
  simp only [sseBatches]
  rw [h1, h2]

/-- Counterexample to C5 as stated: when `stop()` lands at step 1 — right
after the first read iteration's flag check but before any frame of that
iteration is processed — the loop still processes both frames buffered in
that iteration (`procTime` 1 and 2, both at or after the stop moment 1):
there is no per-frame flag check. -/
theorem c5_cx_frames_processed_after_stop :
    (⟨0, 1, strL "a"⟩ : ProcFrame) ∈ readLoop (some 1) 0 [] [strL "a\n\nb\n\n"]
      ∧ (⟨0, 2, strL "b"⟩ : ProcFrame) ∈ readLoop (some 1) 0 [] [strL "a\n\nb\n\n"]
      ∧ ¬ ((1 : Nat) < 1) := by
  have e0 : splitFirstNN ([] : Str) = none := rfl
  have e2 : splitFirstNN (strL "b\n\n") = some (strL "b", []) := by decide
  have e1 : splitFirstNN (strL "a\n\nb\n\n") = some (strL "a", strL "b\n\n") := by
    decide
  have hloop : readLoop (some 1) 0 [] [strL "a\n\nb\n\n"]
      = [⟨0, 1, strL "a"⟩, ⟨0, 2, strL "b"⟩] := by
    rw [readLoop, if_neg (by decide)]
    simp only [List.nil_append]
    rw [extractFrames_some e1, extractFrames_some e2, extractFrames_none e0]
    rw [readLoop]
    simp [List.enum]
  rw [hloop]
  exact ⟨by simp, by simp, by omega⟩

/-- C5 (amended): the stop flag is checked at the top of each read
iteration only.  Every processed frame belongs to an iteration whose check
observed the flag still unset (its check step precedes the stop step), and
its processing happens strictly after that check; frames already buffered
when their iteration's check passed are still processed even if the flag is
set meanwhile, but no later iteration processes anything. -/
theorem c5_stop_checked_per_iteration (k : Nat) (chunks : List Str)
    (pf : ProcFrame) (hpf : pf ∈ readLoop (some k) 0 [] chunks) :
    pf.checkTime < k ∧ pf.checkTime < pf.procTime :=
  readLoop_checkTime_lt k chunks 0 [] pf hpf

/-- Witness: one frame processed under a stop scheduled far in the future. -/
theorem c5_stop_checked_per_iteration_witness :
    (⟨0, 1, strL "a"⟩ : ProcFrame) ∈ readLoop (some 5) 0 [] [strL "a\n\n"]
      ∧ ((⟨0, 1, strL "a"⟩ : ProcFrame).checkTime < 5
          ∧ (⟨0, 1, strL "a"⟩ : ProcFrame).checkTime
              < (⟨0, 1, strL "a"⟩ : ProcFrame).procTime) := by
  have e0 : splitFirstNN ([] : Str) = none := rfl
  have e1 : splitFirstNN (strL "a\n\n") = some (strL "a", []) := by decide
  have hloop : readLoop (some 5) 0 [] [strL "a\n\n"] = [⟨0, 1, strL "a"⟩] := by
    rw [readLoop, if_neg (by decide)]
    simp only [List.nil_append]
    rw [extractFrames_some e1, extractFrames_none e0]
    rw [readLoop]
    simp [List.enum]
  have hmem : (⟨0, 1, strL "a"⟩ : ProcFrame) ∈ readLoop (some 5) 0 [] [strL "a\n\n"] := by
    rw [hloop]
    simp
  exact ⟨hmem, c5_stop_checked_per_iteration 5 [strL "a\n\n"] ⟨0, 1, strL "a"⟩ hmem⟩

theorem processEventText_invalid (parse : Str → Option Json) (f : Str)
    (h : parse (dataStrOf f) = none) :
    processEventText parse f = ([], none) := by
  simp only [processEventText]
  split
  · rfl
  · simp [h]

/-- C2: a frame whose reconstructed document is not valid JSON produces no
sink invocation and no uncaught exception (the decode error is caught and
the frame skipped), and removing it from the frame sequence leaves the
entire processing trace — including every subsequent valid frame's batches
— unchanged. -/
theorem c2_invalid_json_skipped (parse : Str → Option Json)
    (pre post : List Str) (f : Str) (h : parse (dataStrOf f) = none) :
    processEventText parse f = ([], none)
      ∧ processFrames parse (pre ++ f :: post) = processFrames parse (pre ++ post) := by
  refine ⟨processEventText_invalid parse f h, ?_⟩
  induction pre with
  | nil =>
    simp only [List.nil_append]
    rw [processFrames, processEventText_invalid parse f h]
    simp
  | cons g gs ih =>
    simp only [List.cons_append]
    rw [processFrames, processFrames, ih]

/-- Witness: an unparsable frame between two frames that each decode to a
delivered batch; the trace with the bad frame equals the trace without it. -/
theorem c2_invalid_json_skipped_witness :
    parseEvOnly (dataStrOf (strL "data: oops")) = none
      ∧ (processEventText parseEvOnly (strL "data: oops") = ([], none)
         ∧ processFrames parseEvOnly
             ([strL "data: EV"] ++ strL "data: oops" :: [strL "data: EV"])
             = processFrames parseEvOnly ([strL "data: EV"] ++ [strL "data: EV"])) :=
  ⟨rfl, c2_invalid_json_skipped parseEvOnly [strL "data: EV"] [strL "data: EV"]
    (strL "data: oops") rfl⟩

/-- C10: a frame that parses to a JSON value that is neither an object nor
an array, or to an empty update map, is silently dropped — no sink call,
no error, the loop continues. -/
theorem c10_nonmap_or_empty_dropped (parse : Str → Option Json) (f : Str)
    (j : Json) (h : parse (dataStrOf f) = some j)
    (hj : jsonScalar j = true ∨ j = .obj []) :
    processEventText parse f = ([], none) := by
  simp only [processEventText]
  split
  · rfl
  · rw [h]
    rcases hj with hs | rfl
    · cases j with
      | null => rfl
      | bool b => rfl
      | num n => rfl
      | str s => rfl
      | arr xs => simp [jsonScalar] at hs
      | obj kvs => simp [jsonScalar] at hs
    · rfl

/-- Witness: a frame decoding to the number 5 is dropped silently. -/
theorem c10_nonmap_or_empty_dropped_witness :
    processEventText parseNumOnly (strL "data: 5") = ([], none) :=
  c10_nonmap_or_empty_dropped parseNumOnly (strL "data: 5") (.num 5) rfl
    (.inl rfl)

/-! ## Data-line extraction (C8) -/

theorem dataLines_foldl (lines : List Str) (acc : List Str) :
    lines.foldl (fun acc line =>
        if (strL "data:").isPrefixOf line then acc ++ [pyStrip (line.drop 5)]
        else if (strL "data: ").isPrefixOf line then acc ++ [line.drop 6]
        else acc) acc
      = acc ++ lines.filterMap (fun line =>
          if (strL "data:").isPrefixOf line then some (pyStrip (line.drop 5))
          else none) := by
  induction lines generalizing acc with
  | nil => simp
  | cons l ls ih =>
    simp only [List.foldl_cons, List.filterMap_cons]
    by_cases h1 : (strL "data:").isPrefixOf l = true
    · simp only [if_pos h1, ih]
      simp
    · have h2 : ¬ (strL "data: ").isPrefixOf l = true := by
        intro h2
        apply h1
        exact List.isPrefixOf_iff_prefix.mpr
          (List.IsPrefix.trans (by decide) ( List.isPrefixOf_iff_prefix.mp h2))
      simp only [if_neg h1, if_neg h2, ih]

/-- C8 (amended): the lines contributing to the reconstructed document are
exactly the `data:`-prefixed ones (the `data: `-with-space branch is dead
code), each contributes the text after the marker with all leading and
trailing whitespace stripped — not just one leading space — and the
payloads are joined by newline. -/
theorem c8_data_line_extraction (event_text : Str) :
    extractDataLines event_text
      = (event_text.splitOn '\n').filterMap (fun line =>
          if (strL "data:").isPrefixOf line then some (pyStrip (line.drop 5))
          else none)
      ∧ dataStrOf event_text
        = (strL "\n").intercalate ((event_text.splitOn '\n').filterMap (fun line =>
            if (strL "data:").isPrefixOf line then some (pyStrip (line.drop 5))
            else none)) := by
  have h1 : extractDataLines event_text
      = (event_text.splitOn '\n').filterMap (fun line =>
          if (strL "data:").isPrefixOf line then some (pyStrip (line.drop 5))
          else none) := by
    simp only [extractDataLines]
    simpa using dataLines_foldl (event_text.splitOn '\n') []
  exact ⟨h1, by simp only [dataStrOf]; rw [h1]⟩

/-- Counterexample to C8 as stated: on the line `data:  x ` the code keeps
payload `x` (full `strip()`), while the claimed rule — at most one leading
space removed, everything else preserved — yields ` x `. -/
theorem c8_cx_payload_stripped :
    extractDataLines (strL "data:  x ") = [strL "x"]
      ∧ specDataPayload (strL "data:  x ") = strL " x "
      ∧ (strL "x" : Str) ≠ strL " x " :=
  ⟨rfl, rfl, by decide⟩

/-! ## Snapshot parsing claims (C7) -/

theorem jLookup_mem {entries : List (Str × Json)} {k : Str} {v : Json}
    (h : jLookup entries k = some v) : (k, v) ∈ entries := by
  induction entries with
  | nil => simp [jLookup] at h
  | cons kv rest ih =>
    obtain ⟨k2, v2⟩ := kv
    rw [jLookup] at h
    split at h
    · rename_i heq
      obtain rfl := Option.some.inj h
      subst heq
      exact List.mem_cons_self _ _
    · exact List.mem_cons_of_mem _ (ih h)

theorem vqtList_ok_of_objs (xs : List Json)
    (h : ∀ x ∈ xs, isObjJson x = true) :
    ∃ vs, vqtList xs = .ok vs := by
  induction xs with
  | nil => exact ⟨[], rfl⟩
  | cons x xs ih =>
    obtain ⟨vs, hvs⟩ := ih (fun y hy => h y (List.mem_cons_of_mem _ hy))
    have hx := h x (List.mem_cons_self _ _)
    rcases x with _ | b | n | s | elems | kvs <;> simp [isObjJson] at hx
    rcases hres : vqtList (Json.obj kvs :: xs) with e | vs2
    · simp only [vqtList, VQT.from_dict, hvs] at hres
      exact Except.noConfusion hres
    · exact ⟨vs2, rfl⟩

theorem vqtsOf_ok_of_shaped {kvs : List (Str × Json)}
    (hdata : ∀ k v, (k, v) ∈ kvs → k = dataKey →
      ∃ xs, v = .arr xs ∧ ∀ x ∈ xs, isObjJson x = true) :
    ∃ vs, vqtsOf kvs = .ok vs := by
  rcases hl : jLookup kvs dataKey with _ | d
  · exact ⟨[], by simp [vqtsOf, hl]⟩
  · obtain ⟨xs, rfl, hobjs⟩ := hdata dataKey d (jLookup_mem hl) rfl
    obtain ⟨vs, hvs⟩ := vqtList_ok_of_objs xs hobjs
    exact ⟨vs, by simp [vqtsOf, hl, pyIter, hvs]⟩

theorem childList_ok (kvs : List (Str × Json))
    (h : ∀ k v, (k, v) ∈ kvs → k ≠ dataKey →
      ∃ r, LastKnownValue.from_response k v = .ok r) :
    ∃ cs, LastKnownValue.childList kvs = .ok cs
      ∧ cs.map Prod.fst = (kvs.map Prod.fst).filter (fun k => !(k == dataKey))
      ∧ ∀ p ∈ cs, ∃ v2, (p.1, v2) ∈ kvs
          ∧ LastKnownValue.from_response p.1 v2 = .ok p.2 := by
  induction kvs with
  | nil => exact ⟨[], by simp [LastKnownValue.childList], rfl, by simp⟩
  | cons kv rest ih =>
    obtain ⟨k, v⟩ := kv
    obtain ⟨cs, hcs, hmap, hall⟩ :=
      ih (fun k2 v2 hm hk => h k2 v2 (List.mem_cons_of_mem _ hm) hk)
    by_cases hk : k = dataKey
    · subst hk
      refine ⟨cs, by simp [LastKnownValue.childList, hcs], ?_, ?_⟩
      · simpa using hmap
      · intro p hp
        obtain ⟨v2, hv2, hok⟩ := hall p hp
        exact ⟨v2, List.mem_cons_of_mem _ hv2, hok⟩
    · obtain ⟨r, hr⟩ := h k v (List.mem_cons_self _ _) hk
      refine ⟨(k, r) :: cs, by simp [LastKnownValue.childList, hk, hr, hcs], ?_, ?_⟩
      · simpa [hk] using hmap
      · intro p hp
        rcases List.mem_cons.mp hp with rfl | hp2
        · exact ⟨v, List.mem_cons_self _ _, hr⟩
        · obtain ⟨v2, hv2, hok⟩ := hall p hp2
          exact ⟨v2, List.mem_cons_of_mem _ hv2, hok⟩

theorem from_response_of_shaped {v : Json} (h : SnapshotShaped v) :
    ∀ eid, ∃ kvs vs cs, v = .obj kvs
      ∧ vqtsOf kvs = .ok vs
      ∧ LastKnownValue.childList kvs = .ok cs
      ∧ LastKnownValue.from_response eid v = .ok (.mk eid vs cs)
      ∧ cs.map Prod.fst = (kvs.map Prod.fst).filter (fun k => !(k == dataKey))
      ∧ ∀ p ∈ cs, ∃ v2, (p.1, v2) ∈ kvs
          ∧ LastKnownValue.from_response p.1 v2 = .ok p.2 := by
  induction h with
  | mk kvs hnodup hdata hchild ih =>
    intro eid
    obtain ⟨vs, hvs⟩ := vqtsOf_ok_of_shaped hdata
    obtain ⟨cs, hcs, hmap, hall⟩ := childList_ok kvs (fun k v hm hk => by
      obtain ⟨kvs2, vs2, cs2, heq, _, _, hok, _, _⟩ := ih k v hm hk k
      exact ⟨_, hok⟩)
    exact ⟨kvs, vs, cs, rfl, hvs, hcs,
      by simp [LastKnownValue.from_response, hvs, hcs], hmap, hall⟩

/-- C7 (amended): for every snapshot-shaped payload,
`LastKnownValue.from_response` succeeds, its `children` carry exactly the
non-`data` keys in payload order, and each child is itself recursively
parsed by `from_response`; but a snapshot payload arriving inside a stream
value-change record keeps its non-`data` entries as raw, unparsed JSON
sub-payloads (only the top-level `data` key is excluded). -/
theorem c7_children_recursive_parse (eid ed : Str) (kvs : List (Str × Json))
    (h : SnapshotShaped (.obj kvs)) :
    ∃ vs cs,
      LastKnownValue.from_response eid (.obj kvs) = .ok (.mk eid vs cs)
        ∧ cs.map Prod.fst = (kvs.map Prod.fst).filter (fun k => !(k == dataKey))
        ∧ (∀ p ∈ cs, ∃ v2, (p.1, v2) ∈ kvs
            ∧ LastKnownValue.from_response p.1 v2 = .ok p.2)
        ∧ ValueChange.from_stream_event (.obj [(ed, .obj kvs)])
            = .ok [⟨ed, vs, (kvs.filter fun kv => !(kv.1 == dataKey)).map
                fun kv => (kv.1, ChildVal.raw kv.2)⟩] := by
  obtain ⟨kvs2, vs, cs, heq, hvs, hcs, hok, hmap, hall⟩ :=
    from_response_of_shaped h eid
  obtain rfl : kvs2 = kvs := by injection heq with h2; exact h2.symm
  refine ⟨vs, cs, hok, hmap, hall, ?_⟩
  simp [ValueChange.from_stream_event, ValueChange.entryLoop,
    ValueChange.ofEntry, hvs]

theorem snapshotShaped_leaf_demo : SnapshotShaped (.obj [(dataKey, .arr [])]) := by
  refine .mk _ (by decide) ?_ ?_
  · intro k v hm hk
    simp only [List.mem_singleton] at hm
    rcases hm with ⟨rfl, rfl⟩
    exact ⟨[], rfl, by simp⟩
  · intro k v hm hk
    simp only [List.mem_singleton] at hm
    rcases hm with ⟨rfl, rfl⟩
    exact absurd rfl hk

theorem snapshotShaped_scenario_demo :
    SnapshotShaped (.obj [(dataKey, .arr []),
      (strL "child-1", .obj [(dataKey, .arr [])])]) := by
  refine .mk _ (by decide) ?_ ?_
  · intro k v hm hk
    simp only [List.mem_cons, List.mem_singleton, List.not_mem_nil, or_false] at hm
    rcases hm with ⟨rfl, rfl⟩ | ⟨rfl, rfl⟩
    · exact ⟨[], rfl, by simp⟩
    · exact absurd hk (by decide)
  · intro k v hm hk
    simp only [List.mem_cons, List.mem_singleton, List.not_mem_nil, or_false] at hm
    rcases hm with ⟨rfl, rfl⟩ | ⟨rfl, rfl⟩
    · exact absurd rfl hk
    · exact snapshotShaped_leaf_demo

/-- Witness: the spec's scenario payload
`{"data": [], "child-1": {"data": []}}`. -/
theorem c7_children_recursive_parse_witness :
    SnapshotShaped (.obj [(dataKey, .arr []),
        (strL "child-1", .obj [(dataKey, .arr [])])])
      ∧ ∃ vs cs,
        LastKnownValue.from_response (strL "e")
            (.obj [(dataKey, .arr []), (strL "child-1", .obj [(dataKey, .arr [])])])
          = .ok (.mk (strL "e") vs cs)
          ∧ cs.map Prod.fst
            = (([(dataKey, Json.arr []),
                (strL "child-1", Json.obj [(dataKey, Json.arr [])])]).map
                  Prod.fst).filter (fun k => !(k == dataKey))
          ∧ (∀ p ∈ cs, ∃ v2,
              (p.1, v2) ∈ [(dataKey, Json.arr []),
                (strL "child-1", Json.obj [(dataKey, Json.arr [])])]
              ∧ LastKnownValue.from_response p.1 v2 = .ok p.2)
          ∧ ValueChange.from_stream_event
              (.obj [(strL "e1", .obj [(dataKey, .arr []),
                (strL "child-1", .obj [(dataKey, .arr [])])])])
            = .ok [⟨strL "e1", vs,
                (([(dataKey, Json.arr []),
                  (strL "child-1", Json.obj [(dataKey, Json.arr [])])]).filter
                    fun kv => !(kv.1 == dataKey)).map
                  fun kv => (kv.1, ChildVal.raw kv.2)⟩] :=
  ⟨snapshotShaped_scenario_demo,
    c7_children_recursive_parse (strL "e") (strL "e1") _ snapshotShaped_scenario_demo⟩

/-- Counterexample to C7 as stated: inside a stream value-change record the
child entry keyed `child-1` is stored as the raw JSON sub-payload, which is
not a recursively parsed snapshot record of any kind. -/
theorem c7_cx_stream_children_not_parsed :
    ValueChange.from_stream_event
        (.obj [(strL "e1", .obj [(dataKey, .arr []),
          (strL "child-1", .obj [(dataKey, .arr [])])])])
      = .ok [⟨strL "e1", [],
          [(strL "child-1", ChildVal.raw (.obj [(dataKey, .arr [])]))]⟩]
      ∧ (∀ l : LastKnownValue,
          ChildVal.raw (.obj [(dataKey, .arr [])]) ≠ ChildVal.parsed l) :=
  ⟨rfl, fun _ h => ChildVal.noConfusion h⟩

end I3X
